import Mathlib

/-!
Shallow embedding of the instaKiller Chrome-extension background worker
(`src/background.js`) and its options-page helper (`src/unnamed/part_000`).

JavaScript values are modelled as follows: a variable holding `null` or a
string becomes `Option String` (`none` = `null`); JS truthiness on such a
value is `truthyOpt` (both `null` and `""` are falsy); strict equality
`===` is `Option` equality.  `chrome.storage.local` is the `Storage`
record of the keys the code touches.  The asynchronous environment
(outcome of `fetch`, `Date.now()`, the cookie store) is passed in
explicitly.  Network calls are recorded as `NetworkCall` values; a thrown
(rejected-promise) exit is the `thrown : Bool` field of `SendOutcome`.
-/

namespace InstaKiller

/-- JS truthiness of a `string | null` value: `null` and `""` are falsy. -/
def truthyOpt : Option String → Bool
  | none => false
  | some s => s ≠ ""

/-- JS `x || null` on a `string | null` value: collapses `""` to `null`. -/
def orNull (v : Option String) : Option String :=
  if truthyOpt v then v else none

/-! ## URL model

`new URL(...)` / `URL.prototype.toString` are modelled on the URL shapes the
extension handles: `scheme "://" host path ["?" query]`, where `host` is the
authority (possibly containing a port) and `query` keeps its leading `?`.
Parsing splits at the first `:` (the scheme separator), then at the first
`/` or `?` (end of authority), then at the first `?` (start of query).
An input without `"://"` after a nonempty scheme fails to parse, modelling
the `TypeError` that `new URL` throws on invalid input. -/

structure UrlModel where
  scheme : String
  host : String
  path : String
  query : String
deriving DecidableEq, Repr

def UrlModel.toUrlString (u : UrlModel) : String :=
  u.scheme ++ "://" ++ u.host ++ u.path ++ u.query

def isHostEnd (c : Char) : Bool := c = '/' || c = '?'

def parseURLAux (cs : List Char) : Option UrlModel :=
  match cs.dropWhile (fun c => c != ':') with
  | ':' :: '/' :: '/' :: rest =>
    if cs.takeWhile (fun c => c != ':') = [] then none
    else
      some ⟨String.mk (cs.takeWhile (fun c => c != ':')),
            String.mk (rest.takeWhile (fun c => !(isHostEnd c))),
            String.mk ((rest.dropWhile (fun c => !(isHostEnd c))).takeWhile
              (fun c => c != '?')),
            String.mk ((rest.dropWhile (fun c => !(isHostEnd c))).dropWhile
              (fun c => c != '?'))⟩
  | _ => none

def parseURL (s : String) : Option UrlModel := parseURLAux s.toList

/-! ## The two regular expressions of `sendSessionToSynology` (lines 309)

`/^\s*\w+\s+\S+/` and `/^\s*Bearer\s+/i`.  Each character class pair that
meets at a quantifier boundary is disjoint (`\w` vs `\s`, `\s` vs `\S`), so
greedy left-to-right matching without backtracking decides the match. -/

/-- JS `\w`: `[A-Za-z0-9_]`. -/
def isJsWordChar (c : Char) : Bool :=
  ('a' ≤ c && c ≤ 'z') || ('A' ≤ c && c ≤ 'Z') || ('0' ≤ c && c ≤ '9') || c = '_'

/-- JS `\s` restricted to the ASCII whitespace characters that can occur in
a trimmed settings string. -/
def isJsSpace (c : Char) : Bool :=
  c = ' ' || c = '\t' || c = '\n' || c = '\r' || c = '\x0b' || c = '\x0c'

/-- JS `String.prototype.trim`: strip leading and trailing whitespace. -/
def jsTrim (s : String) : String :=
  String.mk (((s.toList.dropWhile isJsSpace).reverse.dropWhile isJsSpace).reverse)

/-- `/^\s*\w+\s+\S+/.test(token)`. -/
def matchesSchemeValueShape (cs : List Char) : Bool :=
  let r1 := cs.dropWhile isJsSpace
  let r2 := r1.dropWhile isJsWordChar
  let r3 := r2.dropWhile isJsSpace
  decide (r1.takeWhile isJsWordChar ≠ []) &&
  decide (r2.takeWhile isJsSpace ≠ []) &&
  decide (r3 ≠ [])

/-- `/^\s*Bearer\s+/i.test(token)`. -/
def matchesBearerStart (cs : List Char) : Bool :=
  match cs.dropWhile isJsSpace with
  | c1 :: c2 :: c3 :: c4 :: c5 :: c6 :: rest =>
    c1.toLower = 'b' && c2.toLower = 'e' && c3.toLower = 'a' &&
    c4.toLower = 'r' && c5.toLower = 'e' && c6.toLower = 'r' &&
    (match rest with
     | x :: _ => isJsSpace x
     | [] => false)
  | _ => false

/-- `looksPrefixed` of background.js line 309. -/
def looksPrefixed (token : String) : Bool :=
  matchesSchemeValueShape token.toList || matchesBearerStart token.toList

/-! ## Cookie-domain filter of the `chrome.cookies.onChanged` listener -/

/-- `domain.replace(/^\./, "")`: strip at most one leading dot. -/
def stripLeadingDot (s : String) : String :=
  match s.toList with
  | '.' :: rest => String.mk rest
  | _ => s

/-- `/(^|\.)instagram\.com$/.test(d)`: `d` is `"instagram.com"` itself or
ends in `".instagram.com"`. -/
def matchesInstagramDomain (d : String) : Bool :=
  d = "instagram.com" || List.isSuffixOf ".instagram.com".toList d.toList

/-! ## Persistent storage and worker state -/

/-- The `chrome.storage.local` keys the code reads or writes. -/
structure Storage where
  instagram_sessionid : Option String
  last_sent_sessionid : Option String
  last_sent_at_ms : Option Nat
  synology_endpoint : Option String
  synology_token : Option String
deriving DecidableEq, Repr

/-- The module-level mutable variables of `background.js` (lines 9–12)
together with the persistent store. -/
structure St where
  cachedInstagramSessionId : Option String
  lastSentSessionId : Option String
  lastSentAtMs : Nat
  isSending : Bool
  storage : Storage
deriving DecidableEq, Repr

def DEFAULT_ENDPOINT : String := "http://pampakim.synology.me:3000/api/collect-session"

/-! ## `normalizeEndpoint` of the options page (src/unnamed/part_000, lines 79–91) -/

def normalizeEndpoint (urlValue : String) : String :=
  if urlValue = "" then ""
  else
    match parseURL urlValue with
    | none => urlValue
    | some u =>
      if u.path = "/collect-session" then
        UrlModel.toUrlString { u with path := "/api/collect-session" }
      else urlValue

/-! ## `sendSessionToSynology` (background.js lines 258–344)

The function is split at its first suspension point (the `await` of the
storage read, line 282): `sendGuard` is the synchronous prefix — the
empty-token check, the dedup check, the in-flight check and the
`isSending = true` write — and `sendBody` is the remainder of the
`try`/`catch`/`finally`.  Between the guard's check of `isSending` and its
write there is no `await`, so the prefix is atomic in the single-threaded
event-loop model. -/

structure NetworkCall where
  endpoint : String
  contentType : String
  authorization : Option String
  bodyValue : String
  bodyTs : Nat
deriving DecidableEq, Repr

inductive FetchOutcome where
  | response (status : Nat)
  | networkError
deriving DecidableEq, Repr

/-- `Response.ok`: status in 200–299. -/
def FetchOutcome.isOk : FetchOutcome → Bool
  | .response s => 200 ≤ s && s ≤ 299
  | .networkError => false

structure Env where
  fetch : FetchOutcome
  now : Nat
deriving DecidableEq, Repr

structure SendOutcome where
  st : St
  calls : List NetworkCall
  thrown : Bool
deriving DecidableEq, Repr

inductive GuardResult where
  | thrownEmpty
  | rejected
  | proceed (st : St)
deriving DecidableEq, Repr

/-- Lines 258–279: the guards and the flag set. -/
def sendGuard (st : St) (sessionIdValue : String) (testMode : Bool) : GuardResult :=
  if sessionIdValue = "" then
    (if testMode then .thrownEmpty else .rejected)
  else if testMode = false ∧ st.lastSentSessionId = some sessionIdValue then .rejected
  else if testMode = false ∧ st.isSending then .rejected
  else .proceed (if testMode then st else { st with isSending := true })

/-- Lines 285–303: read the configured endpoint, rewrite a legacy
`/collect-session` path to `/api/collect-session` (persisting the fix),
fall back to `DEFAULT_ENDPOINT` (persisting it) when none is configured.
Returns the storage after these writes and the endpoint used. -/
def endpointFix (storage : Storage) : Option String :=
  let endpoint0 := jsTrim (storage.synology_endpoint.getD "")
  if endpoint0 = "" then none
  else
    match parseURL endpoint0 with
    | none => none
    | some u =>
      if u.path = "/collect-session" then
        some (UrlModel.toUrlString { u with path := "/api/collect-session" })
      else none

def normalizeStoredEndpoint (storage : Storage) : Storage × String :=
  let endpoint0 := jsTrim (storage.synology_endpoint.getD "")
  let endpoint1 := (endpointFix storage).getD endpoint0
  let storage1 :=
    match endpointFix storage with
    | some e => { storage with synology_endpoint := some e }
    | none => storage
  if endpoint1 = "" then
    ({ storage1 with synology_endpoint := some DEFAULT_ENDPOINT }, DEFAULT_ENDPOINT)
  else (storage1, endpoint1)

/-- Lines 306–311: the Authorization header from the (already trimmed)
configured token. -/
def authorizationHeader (token : String) : Option String :=
  if token = "" then none
  else some (if looksPrefixed token then token else "Bearer " ++ token)

/-- The single `fetch` request of lines 313–322. -/
def mkNetworkCall (storage : Storage) (sessionIdValue : String) (now : Nat) : NetworkCall :=
  { endpoint := (normalizeStoredEndpoint storage).2
    contentType := "application/json"
    authorization := authorizationHeader (jsTrim (storage.synology_token.getD ""))
    bodyValue := sessionIdValue
    bodyTs := now }

/-- Lines 281–343: the `try`/`catch`/`finally` body, from the settings read
to the `finally` that clears `isSending` on non-test calls. -/
def sendBody (st : St) (sessionIdValue : String) (testMode : Bool) (env : Env) : SendOutcome :=
  let storage2 := (normalizeStoredEndpoint st.storage).1
  let call := mkNetworkCall st.storage sessionIdValue env.now
  let st1 := { st with storage := storage2 }
  if env.fetch.isOk then
    let st2 :=
      { st1 with
        lastSentSessionId := some sessionIdValue
        lastSentAtMs := env.now
        storage :=
          { storage2 with
            last_sent_sessionid := some sessionIdValue
            last_sent_at_ms := some env.now } }
    ⟨(if testMode then st2 else { st2 with isSending := false }), [call], false⟩
  else
    ⟨(if testMode then st1 else { st1 with isSending := false }), [call], testMode⟩

/-- `sendSessionToSynology(sessionIdValue, testMode)`, lines 258–344. -/
def sendSessionToSynology (st : St) (sessionIdValue : String) (testMode : Bool)
    (env : Env) : SendOutcome :=
  match sendGuard st sessionIdValue testMode with
  | .thrownEmpty => ⟨st, [], true⟩
  | .rejected => ⟨st, [], false⟩
  | .proceed st' => sendBody st' sessionIdValue testMode env

/-- `maybeSendIfChanged(current, force)`, lines 360–376.  The inner call is
always `sendSessionToSynology(current)` with default `testMode = false`, and
its rejection is swallowed by `.catch(() => {})`. -/
def maybeSendIfChanged (st : St) (current : String) (force : Bool) (env : Env) : SendOutcome :=
  if current = "" then ⟨st, [], false⟩
  else if force = false ∧ st.lastSentSessionId = some current then ⟨st, [], false⟩
  else if force = false ∧ st.isSending then ⟨st, [], false⟩
  else
    let r := sendSessionToSynology st current false env
    ⟨r.st, r.calls, false⟩

/-! ## Acquisition: `cacheSessionId`, `getInstagramSessionId`,
`ensureSessionIdCached` (background.js lines 64–137) -/

/-- `cacheSessionId(sessionIdValue, persistToStorage, ...)`, lines 64–77.
`hasStorage` models the `chrome?.storage?.local` presence check. -/
def cacheSessionId (st : St) (sessionIdValue : String) (persistToStorage : Bool)
    (hasStorage : Bool) : St :=
  if sessionIdValue = "" then st
  else
    let st1 := { st with cachedInstagramSessionId := some sessionIdValue }
    if persistToStorage && hasStorage then
      { st1 with storage := { st1.storage with instagram_sessionid := some sessionIdValue } }
    else st1

/-- The cookie store's answer to `chrome.cookies.get` for the `sessionid`
cookie: an API error, no cookie, or a cookie with the given value. -/
inductive CookieEnv where
  | apiError
  | noCookie
  | cookie (value : String)
deriving DecidableEq, Repr

/-- `getInstagramSessionId()`, lines 79–95: resolves the cookie value, or
rejects when the API errors or the cookie is absent or empty. -/
def getInstagramSessionId (cenv : CookieEnv) : Option String :=
  match cenv with
  | .apiError => none
  | .noCookie => none
  | .cookie v => if v = "" then none else some v

structure EnsureOutcome where
  st : St
  result : Option String
  readStorage : Bool
  queriedCookie : Bool
deriving DecidableEq, Repr

/-- `ensureSessionIdCached()`, lines 103–137: memory cache, then persisted
store (which also restores the delivery bookkeeping), then the cookie
store; a cookie failure resolves to `null`. -/
def ensureSessionIdCached (st : St) (hasStorage : Bool) (cenv : CookieEnv) : EnsureOutcome :=
  if truthyOpt st.cachedInstagramSessionId then
    ⟨st, st.cachedInstagramSessionId, false, false⟩
  else if hasStorage then
    let stored := orNull st.storage.instagram_sessionid
    let st1 :=
      { st with
        lastSentSessionId := orNull st.storage.last_sent_sessionid
        lastSentAtMs := st.storage.last_sent_at_ms.getD 0 }
    match stored with
    | some s => ⟨{ st1 with cachedInstagramSessionId := some s }, some s, true, false⟩
    | none =>
      match getInstagramSessionId cenv with
      | some sid => ⟨cacheSessionId st1 sid true hasStorage, some sid, true, true⟩
      | none => ⟨st1, none, true, true⟩
  else
    match getInstagramSessionId cenv with
    | some sid => ⟨{ st with cachedInstagramSessionId := some sid }, some sid, false, true⟩
    | none => ⟨st, none, false, true⟩

/-! ## The `chrome.cookies.onChanged` listener (background.js lines 225–248) -/

/-- The fields of `changeInfo.cookie` the listener reads.  A missing JS
field is the empty string (the listener only tests truthiness). -/
structure CookieRec where
  domain : String
  name : String
  value : String
deriving DecidableEq, Repr

structure HandlerOutcome where
  st : St
  calls : List NetworkCall
  deliveryEvaluated : Bool
deriving DecidableEq, Repr

/-- The listener body: filter on domain and cookie name, cache the value,
then `maybeSendIfChanged(value)` (unforced). -/
def onCookieChanged (st : St) (cookie : Option CookieRec) (env : Env) : HandlerOutcome :=
  match cookie with
  | none => ⟨st, [], false⟩
  | some ck =>
    if ck.domain = "" ∨ ck.name = "" then ⟨st, [], false⟩
    else
      let isInstagram := matchesInstagramDomain (stripLeadingDot ck.domain)
      let isSessionId := ck.name = "sessionid"
      if isInstagram && isSessionId then
        if ck.value = "" then ⟨st, [], false⟩
        else
          let st1 := cacheSessionId st ck.value true true
          let r := maybeSendIfChanged st1 ck.value false env
          ⟨r.st, r.calls, true⟩
      else ⟨st, [], false⟩

/-! ## Two concurrent unforced delivery tasks

The event loop dispatches each candidate-token handler as a task whose
guard prefix (`sendGuard`) runs atomically — there is no `await` between
the `isSending` check and the `isSending = true` write — after which the
delivery body runs across suspension points during which the other task
may run.  During the whole body, `isSending` stays `true` for unforced
calls, so the body is one step as far as the other task's guard can
observe. A schedule is the list of task choices (`true` = task A). -/

inductive Phase where
  | start
  | inFlight
  | finished
deriving DecidableEq, Repr

structure Sys where
  st : St
  phaseA : Phase
  phaseB : Phase
  calls : List NetworkCall
deriving Repr

/-- One scheduler step of a single unforced delivery task for `token`. -/
def stepTask (token : String) (env : Env) (ph : Phase) (st : St)
    (calls : List NetworkCall) : Phase × St × List NetworkCall :=
  match ph with
  | .start =>
    match sendGuard st token false with
    | .proceed st' => (.inFlight, st', calls)
    | _ => (.finished, st, calls)
  | .inFlight =>
    let r := sendBody st token false env
    (.finished, r.st, calls ++ r.calls)
  | .finished => (.finished, st, calls)

def stepSys (token : String) (env : Env) (pickA : Bool) (sys : Sys) : Sys :=
  if pickA then
    let (ph, st, calls) := stepTask token env sys.phaseA sys.st sys.calls
    { sys with phaseA := ph, st := st, calls := calls }
  else
    let (ph, st, calls) := stepTask token env sys.phaseB sys.st sys.calls
    { sys with phaseB := ph, st := st, calls := calls }

def runSched (token : String) (env : Env) (sched : List Bool) (sys : Sys) : Sys :=
  sched.foldl (fun s pick => stepSys token env pick s) sys

def countInFlight (sys : Sys) : Nat :=
  (if sys.phaseA = Phase.inFlight then 1 else 0) +
  (if sys.phaseB = Phase.inFlight then 1 else 0)

/-- Invariant of the two-task system once both guards have run: the issued
calls plus the deliveries still in flight never exceed one, and every issued
call carries the candidate token. -/
def GoodSys (t : String) (sys : Sys) : Prop :=
  sys.calls.length + countInFlight sys ≤ 1 ∧
  sys.phaseA ≠ Phase.start ∧ sys.phaseB ≠ Phase.start ∧
  ∀ c ∈ sys.calls, c.bodyValue = t

/-! ## Sample states for concrete instantiations -/

def storage0 : Storage :=
  { instagram_sessionid := none
    last_sent_sessionid := some "A"
    last_sent_at_ms := some 5
    synology_endpoint := none
    synology_token := none }

def st0 : St :=
  { cachedInstagramSessionId := none
    lastSentSessionId := some "A"
    lastSentAtMs := 5
    isSending := false
    storage := storage0 }

def env0 : Env := { fetch := .response 200, now := 1000 }

def env1 : Env := { fetch := .response 500, now := 1000 }

/-! ## Shared lemmas about the send pipeline -/

theorem sendBody_calls (st : St) (v : String) (tm : Bool) (env : Env) :
    (sendBody st v tm env).calls = [mkNetworkCall st.storage v env.now] := by
  by_cases h : env.fetch.isOk <;> simp [sendBody, h]

theorem sendGuard_proceed_unforced (st : St) (v : String) (hv : v ≠ "")
    (hd : st.lastSentSessionId ≠ some v) (hs : st.isSending = false) :
    sendGuard st v false = .proceed { st with isSending := true } := by
  simp [sendGuard, hv, hd, hs]

theorem sendGuard_rejected_sending (st : St) (v : String) (hv : v ≠ "")
    (hs : st.isSending = true) :
    sendGuard st v false = .rejected := by
  by_cases hd : st.lastSentSessionId = some v <;> simp [sendGuard, hv, hd, hs]

theorem send_calls_shape (st : St) (v : String) (tm : Bool) (env : Env) :
    (sendSessionToSynology st v tm env).calls = [] ∨
    ∃ st', sendGuard st v tm = .proceed st' ∧
      (sendSessionToSynology st v tm env).calls = [mkNetworkCall st'.storage v env.now] := by
  unfold sendSessionToSynology
  cases hg : sendGuard st v tm with
  | thrownEmpty => exact Or.inl rfl
  | rejected => exact Or.inl rfl
  | proceed st' => exact Or.inr ⟨st', rfl, sendBody_calls st' v tm env⟩

theorem sendGuard_proceed_storage (st : St) (v : String) (tm : Bool) (st' : St)
    (h : sendGuard st v tm = .proceed st') : st'.storage = st.storage := by
  unfold sendGuard at h
  split at h
  · split at h <;> simp_all
  · split at h
    · simp_all
    · split at h
      · simp_all
      · cases h
        by_cases htm : tm <;> simp [htm]

theorem sendGuard_forced (st : St) (v : String) (hv : v ≠ "") :
    sendGuard st v true = .proceed st := by
  simp [sendGuard, hv]

theorem normalizeStoredEndpoint_fields (storage : Storage) :
    (normalizeStoredEndpoint storage).1.instagram_sessionid = storage.instagram_sessionid ∧
    (normalizeStoredEndpoint storage).1.last_sent_sessionid = storage.last_sent_sessionid ∧
    (normalizeStoredEndpoint storage).1.last_sent_at_ms = storage.last_sent_at_ms ∧
    (normalizeStoredEndpoint storage).1.synology_token = storage.synology_token := by
  cases hf : endpointFix storage <;> simp only [normalizeStoredEndpoint, hf] <;> split <;> simp

theorem send_preserves_cache (st : St) (v : String) (tm : Bool) (env : Env) :
    (sendSessionToSynology st v tm env).st.cachedInstagramSessionId =
      st.cachedInstagramSessionId ∧
    (sendSessionToSynology st v tm env).st.storage.instagram_sessionid =
      st.storage.instagram_sessionid := by
  unfold sendSessionToSynology
  cases hg : sendGuard st v tm with
  | thrownEmpty => exact ⟨rfl, rfl⟩
  | rejected => exact ⟨rfl, rfl⟩
  | proceed st' =>
    have hcache : st'.cachedInstagramSessionId = st.cachedInstagramSessionId := by
      unfold sendGuard at hg
      split at hg
      · split at hg <;> simp_all
      · split at hg
        · simp_all
        · split at hg
          · simp_all
          · cases hg
            by_cases htm : tm <;> simp [htm]
    have hstor := sendGuard_proceed_storage st v tm st' hg
    have hns := normalizeStoredEndpoint_fields st'.storage
    have hbody : (sendBody st' v tm env).st.cachedInstagramSessionId =
        st'.cachedInstagramSessionId ∧
        (sendBody st' v tm env).st.storage.instagram_sessionid =
          st'.storage.instagram_sessionid := by
      by_cases h : env.fetch.isOk <;>
        by_cases htm : tm <;>
          simp [sendBody, h, htm, hns.1]
    refine ⟨?_, ?_⟩
    · rw [hbody.1, hcache]
    · rw [hbody.2, hstor]

theorem sendGuard_proceed_eq (st : St) (v : String) (tm : Bool) (st' : St)
    (h : sendGuard st v tm = .proceed st') :
    st' = st ∨ st' = { st with isSending := true } := by
  unfold sendGuard at h
  split at h
  · split at h <;> simp_all
  · split at h
    · simp_all
    · split at h
      · simp_all
      · cases h
        by_cases htm : tm <;> simp [htm]

theorem maybeSend_preserves_cache (st : St) (v : String) (force : Bool) (env : Env) :
    (maybeSendIfChanged st v force env).st.cachedInstagramSessionId =
      st.cachedInstagramSessionId ∧
    (maybeSendIfChanged st v force env).st.storage.instagram_sessionid =
      st.storage.instagram_sessionid := by
  unfold maybeSendIfChanged
  split_ifs <;> simp [send_preserves_cache]

/-! ## Lemmas about the URL model -/

theorem takeWhile_append_all {p : Char → Bool} {l1 l2 : List Char}
    (h1 : ∀ c ∈ l1, p c = true) (h2 : ∀ c, l2.head? = some c → p c = false) :
    (l1 ++ l2).takeWhile p = l1 := by
  induction l1 with
  | nil =>
    cases l2 with
    | nil => rfl
    | cons x t => simp [List.takeWhile_cons, h2 x rfl]
  | cons x t ih =>
    have hx := h1 x (List.mem_cons_self x t)
    simp only [List.cons_append, List.takeWhile_cons, hx, if_true]
    rw [ih (fun c hc => h1 c (List.mem_cons_of_mem x hc))]

theorem dropWhile_append_all {p : Char → Bool} {l1 l2 : List Char}
    (h1 : ∀ c ∈ l1, p c = true) (h2 : ∀ c, l2.head? = some c → p c = false) :
    (l1 ++ l2).dropWhile p = l2 := by
  induction l1 with
  | nil =>
    cases l2 with
    | nil => rfl
    | cons x t => simp [List.dropWhile_cons, h2 x rfl]
  | cons x t ih =>
    have hx := h1 x (List.mem_cons_self x t)
    simp only [List.cons_append, List.dropWhile_cons, hx, if_true]
    exact ih (fun c hc => h1 c (List.mem_cons_of_mem x hc))

theorem dropWhile_head_false (p : Char → Bool) (l : List Char) :
    ∀ c, (l.dropWhile p).head? = some c → p c = false := by
  induction l with
  | nil =>
    intro c h
    simp at h
  | cons x t ih =>
    intro c h
    by_cases hx : p x
    · rw [List.dropWhile_cons, if_pos hx] at h
      exact ih c h
    · rw [List.dropWhile_cons, if_neg hx] at h
      have : x = c := by simpa using h
      subst this
      simpa using hx

theorem toUrlString_toList (u : UrlModel) :
    (UrlModel.toUrlString u).toList =
      u.scheme.toList ++ ':' :: '/' :: '/' ::
        (u.host.toList ++ (u.path.toList ++ u.query.toList)) := by
  show (u.scheme ++ "://" ++ u.host ++ u.path ++ u.query).data = _
  simp [String.data_append, String.toList]

theorem parseURLAux_some {cs : List Char} {u : UrlModel} (h : parseURLAux cs = some u) :
    ∃ rest, cs.dropWhile (fun c => c != ':') = ':' :: '/' :: '/' :: rest ∧
      cs.takeWhile (fun c => c != ':') ≠ [] ∧
      u = ⟨String.mk (cs.takeWhile (fun c => c != ':')),
           String.mk (rest.takeWhile (fun c => !(isHostEnd c))),
           String.mk ((rest.dropWhile (fun c => !(isHostEnd c))).takeWhile (fun c => c != '?')),
           String.mk ((rest.dropWhile (fun c => !(isHostEnd c))).dropWhile (fun c => c != '?'))⟩ := by
  unfold parseURLAux at h
  split at h
  · next rest heq =>
    split at h
    · exact absurd h (by simp)
    · next hs =>
      exact ⟨rest, heq, hs, (Option.some.inj h).symm⟩
  · exact absurd h (by simp)

theorem parseURLAux_some_components {cs : List Char} {u : UrlModel}
    (h : parseURLAux cs = some u) :
    ∃ rest, cs.dropWhile (fun c => c != ':') = ':' :: '/' :: '/' :: rest ∧
      u.scheme.toList = cs.takeWhile (fun c => c != ':') ∧
      u.scheme.toList ≠ [] ∧
      u.host.toList = rest.takeWhile (fun c => !(isHostEnd c)) ∧
      u.path.toList = (rest.dropWhile (fun c => !(isHostEnd c))).takeWhile
        (fun c => c != '?') ∧
      u.query.toList = (rest.dropWhile (fun c => !(isHostEnd c))).dropWhile
        (fun c => c != '?') := by
  obtain ⟨rest, heq, hs, hu⟩ := parseURLAux_some h
  subst hu
  exact ⟨rest, heq, rfl, hs, rfl, rfl, rfl⟩

theorem parseURLAux_concat (scheme host path2 query : List Char)
    (hs : scheme ≠ [])
    (hsch : ∀ c ∈ scheme, (c != ':') = true)
    (hhost : ∀ c ∈ host, (!(isHostEnd c)) = true)
    (hpq : ∀ c, (path2 ++ query).head? = some c → isHostEnd c = true)
    (hpath : ∀ c ∈ path2, (c != '?') = true)
    (hquery : ∀ c, query.head? = some c → c = '?') :
    parseURLAux (scheme ++ ':' :: '/' :: '/' :: (host ++ (path2 ++ query))) =
      some ⟨String.mk scheme, String.mk host, String.mk path2, String.mk query⟩ := by
  have hcolon : ∀ c, (':' :: '/' :: '/' :: (host ++ (path2 ++ query))).head? = some c →
      (c != ':') = false := by
    intro c hc
    have : c = ':' := by simpa using hc.symm
    subst this
    simp
  have ht1 := takeWhile_append_all hsch hcolon
  have hd1 := dropWhile_append_all hsch hcolon
  have hpq' : ∀ c, (path2 ++ query).head? = some c → (!(isHostEnd c)) = false := by
    intro c hc
    simp [hpq c hc]
  have ht2 := takeWhile_append_all hhost hpq'
  have hd2 := dropWhile_append_all hhost hpq'
  have hq' : ∀ c, query.head? = some c → (c != '?') = false := by
    intro c hc
    simp [hquery c hc]
  have ht3 := takeWhile_append_all hpath hq'
  have hd3 := dropWhile_append_all hpath hq'
  unfold parseURLAux
  rw [hd1]
  simp only [ht1, ht2, hd2, ht3, hd3, if_neg hs]

theorem toUrlString_ne_empty (u : UrlModel) : UrlModel.toUrlString u ≠ "" := by
  intro h
  have h2 := congrArg String.toList h
  rw [toUrlString_toList] at h2
  simp at h2

theorem parseURL_ne_empty {s : String} {u : UrlModel} (h : parseURL s = some u) :
    s ≠ "" := by
  intro he
  subst he
  exact absurd h (by simp [parseURL, parseURLAux])

theorem parse_toUrlString_fix {s : String} {u : UrlModel} (h : parseURL s = some u) :
    parseURL (UrlModel.toUrlString { u with path := "/api/collect-session" }) =
      some { u with path := "/api/collect-session" } := by
  obtain ⟨rest, heq, hscheme, hsne, hhost, hpath, hquery⟩ :=
    parseURLAux_some_components h
  have htl : (UrlModel.toUrlString { u with path := "/api/collect-session" }).toList =
      u.scheme.toList ++ ':' :: '/' :: '/' ::
        (u.host.toList ++ ("/api/collect-session".toList ++ u.query.toList)) :=
    toUrlString_toList _
  unfold parseURL
  rw [htl]
  have hres := parseURLAux_concat u.scheme.toList u.host.toList
      "/api/collect-session".toList u.query.toList
    hsne
    (by rw [hscheme]
        intro c hc
        have hx := List.mem_takeWhile_imp hc
        exact hx)
    (by rw [hhost]
        intro c hc
        have hx := List.mem_takeWhile_imp hc
        exact hx)
    (by intro c hc
        have h0 : ("/api/collect-session".toList ++ u.query.toList).head? =
            some '/' := rfl
        rw [h0] at hc
        have hc' : c = '/' := by simpa using hc.symm
        subst hc'
        decide)
    (by decide)
    (by rw [hquery]
        intro c hc
        have h1 := dropWhile_head_false (fun c => c != '?') _ c hc
        simpa using h1)
  rw [hres]
  rfl

/-! ## Claim theorems -/

/-- C1: an unforced delivery attempt (`maybeSendIfChanged` with `force = false`,
or `sendSessionToSynology` with `testMode = false`) whose token equals the last
successfully delivered token issues no network call and changes no state; an
unforced attempt on a different non-empty token while no delivery is in flight
issues exactly one network call. -/
theorem unforced_dedup_and_fresh_token (st : St) (t t2 : String) (env : Env) :
    (st.lastSentSessionId = some t →
      maybeSendIfChanged st t false env = ⟨st, [], false⟩ ∧
      sendSessionToSynology st t false env = ⟨st, [], false⟩) ∧
    (t2 ≠ "" → st.lastSentSessionId ≠ some t2 → st.isSending = false →
      (maybeSendIfChanged st t2 false env).calls.length = 1 ∧
      (sendSessionToSynology st t2 false env).calls.length = 1) := by
  constructor
  · intro h
    constructor
    · by_cases ht : t = "" <;> simp [maybeSendIfChanged, ht, h]
    · by_cases ht : t = "" <;> simp [sendSessionToSynology, sendGuard, ht, h]
  · intro h2 hne hs
    have hg := sendGuard_proceed_unforced st t2 h2 hne hs
    have he : sendSessionToSynology st t2 false env =
        sendBody { st with isSending := true } t2 false env := by
      unfold sendSessionToSynology
      rw [hg]
    have hsend : (sendSessionToSynology st t2 false env).calls.length = 1 := by
      rw [he, sendBody_calls]
      rfl
    refine ⟨?_, hsend⟩
    simpa [maybeSendIfChanged, h2, hne, hs] using hsend

/-- Witness for C1 at concrete inputs: last sent `"A"`, candidates `"A"`, `"B"`. -/
theorem unforced_dedup_and_fresh_token_witness :
    maybeSendIfChanged st0 "A" false env0 = ⟨st0, [], false⟩ ∧
    (maybeSendIfChanged st0 "B" false env0).calls.length = 1 :=
  ⟨((unforced_dedup_and_fresh_token st0 "A" "B" env0).1 rfl).1,
   ((unforced_dedup_and_fresh_token st0 "A" "B" env0).2 (by decide) (by decide) rfl).1⟩

/-- C3: a forced delivery (`testMode = true`) on a non-empty token always issues
the network call, whatever `isSending` and the dedup state are, and any failure
(empty token, non-2xx status, transport error) is rethrown to the caller; an
unforced delivery never throws. -/
theorem forced_reports_unforced_swallows (st : St) (t : String) (env : Env) :
    (t ≠ "" → (sendSessionToSynology st t true env).calls.length = 1 ∧
      ((sendSessionToSynology st t true env).thrown = true ↔ env.fetch.isOk = false)) ∧
    sendSessionToSynology st "" true env = ⟨st, [], true⟩ ∧
    (sendSessionToSynology st t false env).thrown = false := by
  refine ⟨?_, ?_, ?_⟩
  · intro ht
    have he : sendSessionToSynology st t true env = sendBody st t true env := by
      unfold sendSessionToSynology
      rw [sendGuard_forced st t ht]
    rw [he]
    refine ⟨by rw [sendBody_calls]; rfl, ?_⟩
    by_cases h : env.fetch.isOk <;> simp [sendBody, h]
  · simp [sendSessionToSynology, sendGuard]
  · unfold sendSessionToSynology
    cases hg : sendGuard st t false with
    | thrownEmpty =>
      unfold sendGuard at hg
      split at hg <;> [skip; (split at hg <;> [skip; split at hg])] <;> simp_all
    | rejected => rfl
    | proceed st' => by_cases h : env.fetch.isOk <;> simp [sendBody, h]

/-- Witness for C3 at concrete inputs: an HTTP 500 on a forced send is rethrown. -/
theorem forced_reports_unforced_swallows_witness :
    (sendSessionToSynology st0 "A" true env1).thrown = true :=
  (((forced_reports_unforced_swallows st0 "A" env1).1 (by decide)).2).mpr (by decide)

/-- C10: `maybeSendIfChanged` never forwards its `force` flag: a forced call on
a non-empty token skips the outer checks but invokes `sendSessionToSynology`
with `testMode = false`, so the inner dedup and in-flight guards still block the
network call. -/
theorem force_not_forwarded (st : St) (t : String) (env : Env) :
    (t ≠ "" → maybeSendIfChanged st t true env =
      ⟨(sendSessionToSynology st t false env).st,
       (sendSessionToSynology st t false env).calls, false⟩) ∧
    (st.lastSentSessionId = some t → (maybeSendIfChanged st t true env).calls = []) ∧
    (st.isSending = true → (maybeSendIfChanged st t true env).calls = []) := by
  refine ⟨?_, ?_, ?_⟩
  · intro ht
    simp [maybeSendIfChanged, ht]
  · intro h
    by_cases ht : t = ""
    · simp [maybeSendIfChanged, ht]
    · have hg : sendGuard st t false = .rejected := by simp [sendGuard, ht, h]
      simp [maybeSendIfChanged, ht, sendSessionToSynology, hg]
  · intro h
    by_cases ht : t = ""
    · simp [maybeSendIfChanged, ht]
    · have hg := sendGuard_rejected_sending st t ht h
      simp [maybeSendIfChanged, ht, sendSessionToSynology, hg]

/-- Witness for C10: with last sent `"A"`, a forced `maybeSendIfChanged("A")`
makes no network call. -/
theorem force_not_forwarded_witness :
    (maybeSendIfChanged st0 "A" true env0).calls = [] :=
  (force_not_forwarded st0 "A" env0).2.1 rfl

/-- C4: every unforced call that reaches the delivery attempt sets `isSending`
before the network call begins and clears it on every exit path; a forced call
neither consults `isSending` in its guards nor writes it anywhere. -/
theorem isSending_lifecycle (st : St) (t : String) (env : Env) (b : Bool) :
    (∀ st', sendGuard st t false = .proceed st' → st'.isSending = true) ∧
    (sendBody st t false env).st.isSending = false ∧
    sendSessionToSynology { st with isSending := b } t true env =
      ⟨{ (sendSessionToSynology st t true env).st with isSending := b },
       (sendSessionToSynology st t true env).calls,
       (sendSessionToSynology st t true env).thrown⟩ := by
  refine ⟨?_, ?_, ?_⟩
  · intro st' h
    unfold sendGuard at h
    split at h
    · split at h <;> simp_all
    · split at h
      · simp_all
      · split at h
        · simp_all
        · cases h
          simp
  · by_cases h : env.fetch.isOk <;> simp [sendBody, h]
  · by_cases ht : t = ""
    · subst ht
      simp [sendSessionToSynology, sendGuard]
    · have h1 := sendGuard_forced { st with isSending := b } t ht
      have h2 := sendGuard_forced st t ht
      have e1 : sendSessionToSynology { st with isSending := b } t true env =
          sendBody { st with isSending := b } t true env := by
        unfold sendSessionToSynology
        rw [h1]
      have e2 : sendSessionToSynology st t true env = sendBody st t true env := by
        unfold sendSessionToSynology
        rw [h2]
      rw [e1, e2]
      by_cases h : env.fetch.isOk <;> simp [sendBody, h]

/-- Witness for C4: a concrete unforced guard pass sets the flag, and the body
clears it. -/
theorem isSending_lifecycle_witness :
    ({ st0 with isSending := true } : St).isSending = true ∧
    (sendBody st0 "B" false env0).st.isSending = false :=
  ⟨(isSending_lifecycle st0 "B" env0 false).1 { st0 with isSending := true } (by decide),
   (isSending_lifecycle st0 "B" env0 false).2.1⟩

/-- C5: the delivery record (`lastSentSessionId`, `lastSentAtMs` and their
persisted copies) is set to the delivered token and the current time exactly
when the HTTP response is 2xx; on any failure, and on any attempt that issues
no call, it is left unchanged. -/
theorem delivery_record_update (st : St) (t : String) (tm : Bool) (env : Env) :
    ((sendSessionToSynology st t tm env).calls ≠ [] → env.fetch.isOk = true →
      (sendSessionToSynology st t tm env).st.lastSentSessionId = some t ∧
      (sendSessionToSynology st t tm env).st.lastSentAtMs = env.now ∧
      (sendSessionToSynology st t tm env).st.storage.last_sent_sessionid = some t ∧
      (sendSessionToSynology st t tm env).st.storage.last_sent_at_ms = some env.now) ∧
    (env.fetch.isOk = false →
      (sendSessionToSynology st t tm env).st.lastSentSessionId = st.lastSentSessionId ∧
      (sendSessionToSynology st t tm env).st.lastSentAtMs = st.lastSentAtMs ∧
      (sendSessionToSynology st t tm env).st.storage.last_sent_sessionid =
        st.storage.last_sent_sessionid ∧
      (sendSessionToSynology st t tm env).st.storage.last_sent_at_ms =
        st.storage.last_sent_at_ms) ∧
    ((sendSessionToSynology st t tm env).calls = [] →
      (sendSessionToSynology st t tm env).st = st) := by
  unfold sendSessionToSynology
  cases hg : sendGuard st t tm with
  | thrownEmpty => exact ⟨by simp, fun _ => ⟨rfl, rfl, rfl, rfl⟩, fun _ => rfl⟩
  | rejected => exact ⟨by simp, fun _ => ⟨rfl, rfl, rfl, rfl⟩, fun _ => rfl⟩
  | proceed st' =>
    have hcase := sendGuard_proceed_eq st t tm st' hg
    have hl : st'.lastSentSessionId = st.lastSentSessionId := by
      cases hcase <;> simp_all
    have hms : st'.lastSentAtMs = st.lastSentAtMs := by
      cases hcase <;> simp_all
    have hstor := sendGuard_proceed_storage st t tm st' hg
    have hns := normalizeStoredEndpoint_fields st'.storage
    have h2 : (normalizeStoredEndpoint st'.storage).1.last_sent_sessionid =
        st.storage.last_sent_sessionid := by rw [hns.2.1, hstor]
    have h3 : (normalizeStoredEndpoint st'.storage).1.last_sent_at_ms =
        st.storage.last_sent_at_ms := by rw [hns.2.2.1, hstor]
    refine ⟨?_, ?_, ?_⟩
    · intro _ hok
      by_cases htm : tm <;> simp [sendBody, hok, htm]
    · intro hok
      by_cases htm : tm <;> simp [sendBody, hok, htm, hl, hms, h2, h3]
    · intro hc
      rw [sendBody_calls] at hc
      exact absurd hc (by simp)

/-- Witness for C5: a 2xx delivery of `"B"` updates the record; a 500 leaves
it unchanged. -/
theorem delivery_record_update_witness :
    (sendSessionToSynology st0 "B" false env0).st.lastSentSessionId = some "B" ∧
    (sendSessionToSynology st0 "B" false env1).st.lastSentSessionId = some "A" :=
  ⟨((delivery_record_update st0 "B" false env0).1 (by decide) rfl).1,
   ((delivery_record_update st0 "B" false env1).2.1 (by decide)).1⟩

/-- C6: `ensureSessionIdCached` follows the order memory cache, persisted
store, live cookie source: a truthy memory value short-circuits both, a truthy
stored value short-circuits the cookie store (and is cached in memory), the
cookie store is queried only when both are empty, and a cookie failure
resolves to `null`. -/
theorem ensure_fallback_order (st : St) (cenv : CookieEnv) :
    (truthyOpt st.cachedInstagramSessionId = true →
      ∀ hasStorage, ensureSessionIdCached st hasStorage cenv =
        ⟨st, st.cachedInstagramSessionId, false, false⟩) ∧
    (truthyOpt st.cachedInstagramSessionId = false →
      truthyOpt st.storage.instagram_sessionid = true →
      (ensureSessionIdCached st true cenv).result = st.storage.instagram_sessionid ∧
      (ensureSessionIdCached st true cenv).queriedCookie = false ∧
      (ensureSessionIdCached st true cenv).st.cachedInstagramSessionId =
        st.storage.instagram_sessionid) ∧
    (truthyOpt st.cachedInstagramSessionId = false →
      truthyOpt st.storage.instagram_sessionid = false →
      (ensureSessionIdCached st true cenv).queriedCookie = true ∧
      (getInstagramSessionId cenv = none →
        (ensureSessionIdCached st true cenv).result = none)) := by
  refine ⟨?_, ?_, ?_⟩
  · intro h hasStorage
    simp [ensureSessionIdCached, h]
  · intro h1 h2
    cases hv : st.storage.instagram_sessionid with
    | none => rw [hv] at h2; simp [truthyOpt] at h2
    | some s =>
      have hs : s ≠ "" := by
        rw [hv] at h2
        simpa [truthyOpt] using h2
      have ho : orNull (some s) = some s := by simp [orNull, truthyOpt, hs]
      simp [ensureSessionIdCached, h1, hv, ho]
  · intro h1 h2
    have hstored : orNull st.storage.instagram_sessionid = none := by
      simp [orNull, h2]
    cases hc : getInstagramSessionId cenv with
    | some sid =>
      refine ⟨by simp [ensureSessionIdCached, h1, hstored, hc], ?_⟩
      intro heq
      simp at heq
    | none =>
      constructor <;> simp [ensureSessionIdCached, h1, hstored, hc]

/-- Witness for C6: warm memory cache `"M"` is returned with no storage read
and no cookie query. -/
theorem ensure_fallback_order_witness :
    ensureSessionIdCached { st0 with cachedInstagramSessionId := some "M" } true
        CookieEnv.apiError =
      ⟨{ st0 with cachedInstagramSessionId := some "M" }, some "M", false, false⟩ :=
  (ensure_fallback_order { st0 with cachedInstagramSessionId := some "M" }
    CookieEnv.apiError).1 (by decide) true

/-- C7: Authorization-header construction: bare token `"abc123"` gets a
`Bearer ` prefix, already-schemed `"Token xyz"` and `"Bearer xyz"` pass through
unchanged, an empty or absent configured token sets no Authorization header,
and the Content-Type header of every issued call is `"application/json"`. -/
theorem auth_header_construction (st : St) (t : String) (tm : Bool) (env : Env) :
    authorizationHeader "abc123" = some "Bearer abc123" ∧
    authorizationHeader "Token xyz" = some "Token xyz" ∧
    authorizationHeader "Bearer xyz" = some "Bearer xyz" ∧
    authorizationHeader "" = none ∧
    (∀ c, c ∈ (sendSessionToSynology st t tm env).calls →
      c.contentType = "application/json") ∧
    (st.storage.synology_token = some "abc123" → t ≠ "" →
      (sendSessionToSynology st t true env).calls = [mkNetworkCall st.storage t env.now] ∧
      (mkNetworkCall st.storage t env.now).authorization = some "Bearer abc123") ∧
    (st.storage.synology_token = none ∨ st.storage.synology_token = some "" →
      (mkNetworkCall st.storage t env.now).authorization = none) := by
  refine ⟨by decide, by decide, by decide, by decide, ?_, ?_, ?_⟩
  · intro c hc
    rcases send_calls_shape st t tm env with h | ⟨st', _, h⟩ <;> rw [h] at hc
    · simp at hc
    · simp at hc
      rw [hc]
      rfl
  · intro htok ht
    have he : sendSessionToSynology st t true env = sendBody st t true env := by
      unfold sendSessionToSynology
      rw [sendGuard_forced st t ht]
    refine ⟨by rw [he, sendBody_calls], ?_⟩
    simp [mkNetworkCall, htok]
    decide
  · intro htok
    rcases htok with h | h <;> simp [mkNetworkCall, h] <;> decide

/-- Witness for C7: a forced send with configured token `"abc123"` issues one
call whose Authorization header is `"Bearer abc123"`. -/
theorem auth_header_construction_witness :
    (mkNetworkCall { storage0 with synology_token := some "abc123" } "B"
      env0.now).authorization = some "Bearer abc123" :=
  ((auth_header_construction { st0 with storage :=
      { storage0 with synology_token := some "abc123" } } "B" true env0).2.2.2.2.2.1
    rfl (by decide)).2

/-- C9: a cookie change event for an `instagram.com` (sub)domain cookie named
`sessionid` with a non-empty value is accepted — the cache is updated and a
delivery evaluation is triggered — while an event for domain
`"notinstagram.com"` or for cookie name `"other"` is ignored with no cache
update and no delivery attempt. -/
theorem cookie_event_filtering (st : St) (env : Env) (v : String) (d : String) :
    (v ≠ "" → (d = "sub.instagram.com" ∨ d = ".instagram.com" ∨ d = "instagram.com") →
      (onCookieChanged st (some ⟨d, "sessionid", v⟩) env).deliveryEvaluated = true ∧
      (onCookieChanged st (some ⟨d, "sessionid", v⟩) env).st.cachedInstagramSessionId =
        some v ∧
      (onCookieChanged st (some ⟨d, "sessionid", v⟩) env).st.storage.instagram_sessionid =
        some v) ∧
    onCookieChanged st (some ⟨"notinstagram.com", "sessionid", v⟩) env = ⟨st, [], false⟩ ∧
    onCookieChanged st (some ⟨d, "other", v⟩) env = ⟨st, [], false⟩ := by
  refine ⟨?_, ?_, ?_⟩
  · intro hv hd
    have hmatch : matchesInstagramDomain (stripLeadingDot d) = true := by
      rcases hd with h | h | h <;> subst h <;> decide
    have hdne : d ≠ "" := by
      rcases hd with h | h | h <;> subst h <;> decide
    have hst1 : cacheSessionId st v true true =
        { st with
          cachedInstagramSessionId := some v
          storage := { st.storage with instagram_sessionid := some v } } := by
      simp [cacheSessionId, hv]
    have hout : onCookieChanged st (some ⟨d, "sessionid", v⟩) env =
        ⟨(maybeSendIfChanged (cacheSessionId st v true true) v false env).st,
         (maybeSendIfChanged (cacheSessionId st v true true) v false env).calls,
         true⟩ := by
      simp [onCookieChanged, hdne, hmatch, hv]
    rw [hout]
    have hp := maybeSend_preserves_cache (cacheSessionId st v true true) v false env
    refine ⟨rfl, ?_, ?_⟩
    · rw [hp.1, hst1]
    · rw [hp.2, hst1]
  · have hm : matchesInstagramDomain (stripLeadingDot "notinstagram.com") = false := by
      decide
    simp [onCookieChanged, hm]
  · by_cases hd : d = "" <;> simp [onCookieChanged, hd]

/-- Witness for C9: a change event on `sub.instagram.com` / `sessionid` /
`"V1"` triggers a delivery evaluation. -/
theorem cookie_event_filtering_witness :
    (onCookieChanged st0 (some ⟨"sub.instagram.com", "sessionid", "V1"⟩)
      env0).deliveryEvaluated = true :=
  ((cookie_event_filtering st0 env0 "V1" "sub.instagram.com").1 (by decide)
    (Or.inl rfl)).1

theorem sendBody_storage_endpoint (st : St) (t : String) (tm : Bool) (env : Env) :
    (sendBody st t tm env).st.storage.synology_endpoint =
      (normalizeStoredEndpoint st.storage).1.synology_endpoint := by
  by_cases h : env.fetch.isOk <;> by_cases htm : tm <;> simp [sendBody, h, htm]

theorem normalizeStoredEndpoint_none (storage : Storage)
    (h : storage.synology_endpoint = none) :
    normalizeStoredEndpoint storage =
      ({ storage with synology_endpoint := some DEFAULT_ENDPOINT }, DEFAULT_ENDPOINT) := by
  have htr : jsTrim "" = "" := rfl
  have hfix : endpointFix storage = none := by simp [endpointFix, h, htr]
  simp [normalizeStoredEndpoint, hfix, h, htr]

theorem normalizeStoredEndpoint_legacy (storage : Storage) (e : String) (u : UrlModel)
    (hse : storage.synology_endpoint = some e)
    (hp : parseURL (jsTrim e) = some u)
    (hl : u.path = "/collect-session") :
    normalizeStoredEndpoint storage =
      ({ storage with synology_endpoint := some (UrlModel.toUrlString { u with path := "/api/collect-session" }) },
       UrlModel.toUrlString { u with path := "/api/collect-session" }) := by
  have hne : jsTrim e ≠ "" := parseURL_ne_empty hp
  have hfix : endpointFix storage =
      some (UrlModel.toUrlString { u with path := "/api/collect-session" }) := by
    simp [endpointFix, hse, hne, hp, hl]
  have hne2 := toUrlString_ne_empty { u with path := "/api/collect-session" }
  simp [normalizeStoredEndpoint, hfix, hne2]

/-- C8: endpoint normalization is idempotent and path-local: an already-correct
endpoint is returned unchanged; an endpoint whose path is exactly
`/collect-session` has only its path rewritten to `/api/collect-session`
(scheme, host and query untouched) and the corrected endpoint is persisted;
with no configured endpoint the fixed default endpoint is used and persisted. -/
theorem endpoint_normalization (s : String) (u : UrlModel) (st : St) (t : String)
    (env : Env) :
    normalizeEndpoint (normalizeEndpoint s) = normalizeEndpoint s ∧
    (parseURL s = some u → u.path ≠ "/collect-session" → normalizeEndpoint s = s) ∧
    (parseURL s = some u → u.path = "/collect-session" →
      normalizeEndpoint s =
        UrlModel.toUrlString { u with path := "/api/collect-session" } ∧
      parseURL (normalizeEndpoint s) = some { u with path := "/api/collect-session" }) ∧
    (st.storage.synology_endpoint = none → t ≠ "" →
      (sendSessionToSynology st t true env).calls = [mkNetworkCall st.storage t env.now] ∧
      (mkNetworkCall st.storage t env.now).endpoint = DEFAULT_ENDPOINT ∧
      (sendSessionToSynology st t true env).st.storage.synology_endpoint =
        some DEFAULT_ENDPOINT) ∧
    (∀ e, st.storage.synology_endpoint = some e → parseURL (jsTrim e) = some u →
      u.path = "/collect-session" → t ≠ "" →
      (mkNetworkCall st.storage t env.now).endpoint =
        UrlModel.toUrlString { u with path := "/api/collect-session" } ∧
      (sendSessionToSynology st t true env).st.storage.synology_endpoint =
        some (UrlModel.toUrlString { u with path := "/api/collect-session" })) := by
  refine ⟨?_, ?_, ?_, ?_, ?_⟩
  · by_cases h0 : s = ""
    · subst h0
      simp [normalizeEndpoint]
    · cases hp : parseURL s with
      | none =>
        have hres : normalizeEndpoint s = s := by simp [normalizeEndpoint, h0, hp]
        rw [hres]
        exact hres
      | some w =>
        by_cases hl : w.path = "/collect-session"
        · have hres : normalizeEndpoint s =
              UrlModel.toUrlString { w with path := "/api/collect-session" } := by
            simp [normalizeEndpoint, h0, hp, hl]
          rw [hres]
          have hfix := parse_toUrlString_fix hp
          have hne := toUrlString_ne_empty { w with path := "/api/collect-session" }
          have hpne : ("/api/collect-session" : String) ≠ "/collect-session" := by decide
          simp [normalizeEndpoint, hne, hfix, hpne]
        · have hres : normalizeEndpoint s = s := by simp [normalizeEndpoint, h0, hp, hl]
          rw [hres]
          exact hres
  · intro hp hl
    simp [normalizeEndpoint, parseURL_ne_empty hp, hp, hl]
  · intro hp hl
    have hres : normalizeEndpoint s =
        UrlModel.toUrlString { u with path := "/api/collect-session" } := by
      simp [normalizeEndpoint, parseURL_ne_empty hp, hp, hl]
    refine ⟨hres, ?_⟩
    rw [hres]
    exact parse_toUrlString_fix hp
  · intro hnone ht
    have hn := normalizeStoredEndpoint_none st.storage hnone
    have he : sendSessionToSynology st t true env = sendBody st t true env := by
      unfold sendSessionToSynology
      rw [sendGuard_forced st t ht]
    refine ⟨by rw [he, sendBody_calls], ?_, ?_⟩
    · simp [mkNetworkCall, hn]
    · rw [he, sendBody_storage_endpoint, hn]
  · intro e hse hp hl ht
    have hn := normalizeStoredEndpoint_legacy st.storage e u hse hp hl
    have he : sendSessionToSynology st t true env = sendBody st t true env := by
      unfold sendSessionToSynology
      rw [sendGuard_forced st t ht]
    refine ⟨?_, ?_⟩
    · simp [mkNetworkCall, hn]
    · rw [he, sendBody_storage_endpoint, hn]

/-- Witness for C8: a legacy-path endpoint is rewritten path-locally, and a
missing endpoint falls back to the default. -/
theorem endpoint_normalization_witness :
    normalizeEndpoint "http://h.example.com/collect-session?x=1" =
      UrlModel.toUrlString ⟨"http", "h.example.com", "/api/collect-session", "?x=1"⟩ ∧
    (mkNetworkCall storage0 "B" 1000).endpoint = DEFAULT_ENDPOINT :=
  ⟨((endpoint_normalization "http://h.example.com/collect-session?x=1"
      ⟨"http", "h.example.com", "/collect-session", "?x=1"⟩ st0 "B" env0).2.2.1
      (by decide) rfl).1,
   ((endpoint_normalization "" ⟨"", "", "", ""⟩ st0 "B" env0).2.2.2.1 rfl
      (by decide)).2.1⟩

theorem stepSys_inFlight_A (t : String) (env : Env) (sys : Sys)
    (hpa : sys.phaseA = Phase.inFlight) :
    stepSys t env true sys =
      { sys with
        phaseA := Phase.finished
        st := (sendBody sys.st t false env).st
        calls := sys.calls ++ (sendBody sys.st t false env).calls } := by
  simp [stepSys, stepTask, hpa]

theorem stepSys_inFlight_B (t : String) (env : Env) (sys : Sys)
    (hpb : sys.phaseB = Phase.inFlight) :
    stepSys t env false sys =
      { sys with
        phaseB := Phase.finished
        st := (sendBody sys.st t false env).st
        calls := sys.calls ++ (sendBody sys.st t false env).calls } := by
  simp [stepSys, stepTask, hpb]

theorem stepSys_finished_A (t : String) (env : Env) (sys : Sys)
    (hpa : sys.phaseA = Phase.finished) : stepSys t env true sys = sys := by
  simp [stepSys, stepTask, hpa]
  rw [← hpa]

theorem stepSys_finished_B (t : String) (env : Env) (sys : Sys)
    (hpb : sys.phaseB = Phase.finished) : stepSys t env false sys = sys := by
  simp [stepSys, stepTask, hpb]
  rw [← hpb]

theorem stepSys_good (t : String) (env : Env) (pick : Bool) (sys : Sys)
    (h : GoodSys t sys) : GoodSys t (stepSys t env pick sys) := by
  obtain ⟨hlen, ha, hb, hv⟩ := h
  cases pick with
  | true =>
    cases hpa : sys.phaseA with
    | start => exact absurd hpa ha
    | inFlight =>
      rw [stepSys_inFlight_A t env sys hpa]
      refine ⟨?_, by simp, by simpa using hb, ?_⟩
      · have h1 : countInFlight sys =
            1 + (if sys.phaseB = Phase.inFlight then 1 else 0) := by
          simp [countInFlight, hpa]
        have h2 : countInFlight
            { sys with
              phaseA := Phase.finished
              st := (sendBody sys.st t false env).st
              calls := sys.calls ++ (sendBody sys.st t false env).calls } =
            (if sys.phaseB = Phase.inFlight then 1 else 0) := by
          simp [countInFlight]
        show (sys.calls ++ (sendBody sys.st t false env).calls).length +
            countInFlight
              { sys with
                phaseA := Phase.finished
                st := (sendBody sys.st t false env).st
                calls := sys.calls ++ (sendBody sys.st t false env).calls } ≤ 1
        rw [h2, sendBody_calls, List.length_append, List.length_singleton]
        rw [h1] at hlen
        omega
      · show ∀ c ∈ sys.calls ++ (sendBody sys.st t false env).calls, c.bodyValue = t
        intro c hc
        rw [sendBody_calls] at hc
        rcases List.mem_append.mp hc with hc | hc
        · exact hv c hc
        · rw [List.mem_singleton.mp hc]
          rfl
    | finished =>
      rw [stepSys_finished_A t env sys hpa]
      exact ⟨hlen, ha, hb, hv⟩
  | false =>
    cases hpb : sys.phaseB with
    | start => exact absurd hpb hb
    | inFlight =>
      rw [stepSys_inFlight_B t env sys hpb]
      refine ⟨?_, by simpa using ha, by simp, ?_⟩
      · have h1 : countInFlight sys =
            (if sys.phaseA = Phase.inFlight then 1 else 0) + 1 := by
          simp [countInFlight, hpb]
        have h2 : countInFlight
            { sys with
              phaseB := Phase.finished
              st := (sendBody sys.st t false env).st
              calls := sys.calls ++ (sendBody sys.st t false env).calls } =
            (if sys.phaseA = Phase.inFlight then 1 else 0) := by
          simp [countInFlight]
        show (sys.calls ++ (sendBody sys.st t false env).calls).length +
            countInFlight
              { sys with
                phaseB := Phase.finished
                st := (sendBody sys.st t false env).st
                calls := sys.calls ++ (sendBody sys.st t false env).calls } ≤ 1
        rw [h2, sendBody_calls, List.length_append, List.length_singleton]
        rw [h1] at hlen
        omega
      · show ∀ c ∈ sys.calls ++ (sendBody sys.st t false env).calls, c.bodyValue = t
        intro c hc
        rw [sendBody_calls] at hc
        rcases List.mem_append.mp hc with hc | hc
        · exact hv c hc
        · rw [List.mem_singleton.mp hc]
          rfl
    | finished =>
      rw [stepSys_finished_B t env sys hpb]
      exact ⟨hlen, ha, hb, hv⟩

theorem runSched_good (t : String) (env : Env) (sched : List Bool) (sys : Sys)
    (h : GoodSys t sys) : GoodSys t (runSched t env sched sys) := by
  induction sched generalizing sys with
  | nil => exact h
  | cons p ps ih => exact ih (stepSys t env p sys) (stepSys_good t env p sys h)

/-- C2: two unforced candidate events for the same new token `t` that arrive
concurrently while no delivery is in flight — both guard prefixes run before
either delivery body — issue at most one network call, and every issued call
carries `t`; the later guard observes `isSending = true` and is rejected
without a call. -/
theorem concurrent_same_token_at_most_one_call (st : St) (t : String) (env : Env)
    (a : Bool) (rest : List Bool) (ht : t ≠ "")
    (hd : st.lastSentSessionId ≠ some t) (hs : st.isSending = false) :
    (runSched t env (a :: (!a) :: rest) ⟨st, .start, .start, []⟩).calls.length ≤ 1 ∧
    ∀ c ∈ (runSched t env (a :: (!a) :: rest) ⟨st, .start, .start, []⟩).calls,
      c.bodyValue = t := by
  have hg1 := sendGuard_proceed_unforced st t ht hd hs
  have hg2 : sendGuard { st with isSending := true } t false = .rejected :=
    sendGuard_rejected_sending { st with isSending := true } t ht rfl
  have hgood : GoodSys t
      (stepSys t env (!a) (stepSys t env a ⟨st, .start, .start, []⟩)) := by
    cases a with
    | false =>
      have e1 : stepSys t env false ⟨st, .start, .start, []⟩ =
          ⟨{ st with isSending := true }, .start, .inFlight, []⟩ := by
        simp [stepSys, stepTask, hg1]
      have e2 : stepSys t env true ⟨{ st with isSending := true }, .start, .inFlight, []⟩ =
          ⟨{ st with isSending := true }, .finished, .inFlight, []⟩ := by
        simp [stepSys, stepTask, hg2]
      rw [show (!false) = true from rfl, e1, e2]
      exact ⟨by simp [countInFlight], by simp, by simp, by simp⟩
    | true =>
      have e1 : stepSys t env true ⟨st, .start, .start, []⟩ =
          ⟨{ st with isSending := true }, .inFlight, .start, []⟩ := by
        simp [stepSys, stepTask, hg1]
      have e2 : stepSys t env false ⟨{ st with isSending := true }, .inFlight, .start, []⟩ =
          ⟨{ st with isSending := true }, .inFlight, .finished, []⟩ := by
        simp [stepSys, stepTask, hg2]
      rw [show (!true) = false from rfl, e1, e2]
      exact ⟨by simp [countInFlight], by simp, by simp, by simp⟩
  have hrun := runSched_good t env rest _ hgood
  have heq : runSched t env (a :: (!a) :: rest) ⟨st, .start, .start, []⟩ =
      runSched t env rest
        (stepSys t env (!a) (stepSys t env a ⟨st, .start, .start, []⟩)) := rfl
  rw [heq]
  exact ⟨le_trans (Nat.le_add_right _ _) hrun.1, hrun.2.2.2⟩

/-- Witness for C2: with last sent `"A"`, two concurrent candidate events for
`"B"` followed by the in-flight body step issue at most one call. -/
theorem concurrent_same_token_at_most_one_call_witness :
    (runSched "B" env0 [true, false, true]
      ⟨st0, .start, .start, []⟩).calls.length ≤ 1 :=
  (concurrent_same_token_at_most_one_call st0 "B" env0 true [true] (by decide)
    (by decide) rfl).1

end InstaKiller
